import Mathlib

/-!
Verification development for the `app_aw` repository: the job execution
engine's state machine, the storage facade, the status publisher /
connection manager, and the frontend components that observe them.

Frontend types and components are embedded from the TypeScript sources
under `src/frontend/src` and the unnamed frontend sources.  The backend
core (execution engine, storage facade, connection manager) is not part
of the source tree, so those parts are modelled from the specification,
as marked on each definition.
-/

namespace AppAW

/-! ## Shared data model (src/frontend/src/types/index.ts) -/

/-- `JobStatus` from `src/frontend/src/types/index.ts` line 30:
`'queued' | 'running' | 'completed' | 'failed' | 'cancelled'`. -/
inductive JobStatus where
  | queued
  | running
  | completed
  | failed
  | cancelled
deriving DecidableEq, Repr

/-- The three terminal statuses (`completed`, `failed`, `cancelled`),
as tested by `['completed', 'failed', 'cancelled'].includes(data.status)`
in `ExecutionMonitor.tsx`. -/
def JobStatus.isTerminal : JobStatus → Bool
  | .completed => true
  | .failed => true
  | .cancelled => true
  | _ => false

/-- `WorkflowStepType` from `types/index.ts`. -/
inductive WorkflowStepType where
  | loading
  | preparing
  | validation
deriving DecidableEq, Repr

/-- `WorkflowStep` from `types/index.ts`: `{type, config, require_approval?}`.
The `config: Record<string, any>` payload is modelled as a string-keyed
association list of string values. -/
structure WorkflowStep where
  type : WorkflowStepType
  config : List (String × String)
  require_approval : Option Bool
deriving DecidableEq, Repr

/-- `Workflow` from `types/index.ts`. -/
structure Workflow where
  id : String
  name : String
  description : Option String
  steps : List WorkflowStep
  global_config : Option (List (String × String))
  created_at : String
  updated_at : String
deriving DecidableEq, Repr

/-- `Job` from `types/index.ts` (the REST-facing job record). -/
structure Job where
  id : String
  workflow_id : Option String
  status : JobStatus
  input_data_id : Option String
  result_data_id : Option String
  error : Option String
  progress : Nat
  logs : Option (List String)
  created_at : String
  started_at : Option String
  completed_at : Option String
deriving DecidableEq, Repr

/-- The `type` discriminant of `WSMessage` from `types/index.ts`:
`'status' | 'complete' | 'error'`. -/
inductive WSType where
  | status
  | complete
  | error
deriving DecidableEq, Repr

/-- `WSMessage` from `types/index.ts` lines 78-87. -/
structure WSMessage where
  type : WSType
  job_id : Option String
  status : Option JobStatus
  progress : Option Nat
  error : Option String
  result_data_id : Option String
  message : Option String
deriving DecidableEq, Repr

/-! ## Execution engine state machine

Modelled from the spec: the backend execution engine
(`backend/app/services/workflow_service.py`, `backend/app/core/task_queue.py`)
is not in the source tree; the state machine below follows spec §4.1/§4.2:
states `queued → running → {completed | failed | cancelled}`, the
transitions `dispatch`, `step_progress`, `all_steps_done`,
`handler_error`/`timeout`, and `cancel_request`, and the progress formula
`round(100 * i / n)`. -/

namespace Engine

/-- Modelled from the spec: `round(100 * i / n)` (round half up, in `Nat`). -/
def round100 (i n : Nat) : Nat :=
  (200 * i + n) / (2 * n)

/-- Modelled from the spec §3: the engine-side job record.  `error = ""`
stands for an absent error message; `stepsDone` counts completed steps of
the `totalSteps`-step workflow the job executes. -/
structure JobState where
  status : JobStatus
  progress : Nat
  stepsDone : Nat
  totalSteps : Nat
  resultDataRef : Option String
  error : String
  startedAt : Option Nat
  completedAt : Option Nat
deriving DecidableEq, Repr

/-- Modelled from the spec §3: a job is created `queued`, with zero
progress and no result/error/timestamps. -/
def initialJob (n : Nat) : JobState :=
  { status := .queued
    progress := 0
    stepsDone := 0
    totalSteps := n
    resultDataRef := none
    error := ""
    startedAt := none
    completedAt := none }

/-- Modelled from the spec §4.1: the transition labels of the job state
machine.  `t` is the wall-clock instant recorded in timestamps. -/
inductive Event where
  | dispatch (t : Nat)
  | stepDone
  | allStepsDone (ref : String) (t : Nat)
  | handlerError (msg : String) (t : Nat)
  | timeout (msg : String) (t : Nat)
  | cancelRequest (t : Nat)
deriving DecidableEq, Repr

/-- Modelled from the spec §4.1/§4.2: the guarded transition function of
the job state machine.  `none` means the event does not apply in the
current state (in particular, terminal states admit no transition). -/
def step (s : JobState) : Event → Option JobState
  | .dispatch t =>
      if s.status = .queued then
        some { s with status := .running, startedAt := some t }
      else none
  | .stepDone =>
      if s.status = .running ∧ s.stepsDone < s.totalSteps then
        some { s with stepsDone := s.stepsDone + 1
                      progress := round100 (s.stepsDone + 1) s.totalSteps }
      else none
  | .allStepsDone ref t =>
      if s.status = .running ∧ s.stepsDone = s.totalSteps then
        some { s with status := .completed
                      resultDataRef := some ref
                      completedAt := some t }
      else none
  | .handlerError msg t =>
      if s.status = .running ∧ msg ≠ "" then
        some { s with status := .failed, error := msg, completedAt := some t }
      else none
  | .timeout msg t =>
      if s.status = .running ∧ msg ≠ "" then
        some { s with status := .failed, error := msg, completedAt := some t }
      else none
  | .cancelRequest t =>
      if s.status = .queued ∨ s.status = .running then
        some { s with status := .cancelled, completedAt := some t }
      else none

/-- Run a sequence of events from a state; fails if any event does not
apply where it occurs. -/
def run (s : JobState) : List Event → Option JobState
  | [] => some s
  | e :: es =>
      match step s e with
      | some s' => run s' es
      | none => none

/-- The successive states visited by a run (including the start state). -/
def traceStates (s : JobState) : List Event → Option (List JobState)
  | [] => some [s]
  | e :: es =>
      match step s e with
      | some s' => (traceStates s' es).map (s :: ·)
      | none => none

/-- The successive *distinct* statuses entered after the start state. -/
def statusChanges (s : JobState) : List Event → Option (List JobStatus)
  | [] => some []
  | e :: es =>
      match step s e with
      | some s' =>
          (statusChanges s' es).map
            (fun cs => if s'.status = s.status then cs else s'.status :: cs)
      | none => none

/-- The de-duplicated status path of a run, starting at the start state's
status. -/
def statusPath (s : JobState) (es : List Event) : Option (List JobStatus) :=
  (statusChanges s es).map (s.status :: ·)

/-- The edges of the §4.1 status graph:
`queued → running → {completed | failed | cancelled}` plus
`queued → cancelled`. -/
def allowedTransition : JobStatus → JobStatus → Bool
  | .queued, .running => true
  | .queued, .cancelled => true
  | .running, .completed => true
  | .running, .failed => true
  | .running, .cancelled => true
  | _, _ => false

end Engine

/-! ## Status publisher / connection manager

Modelled from the spec: the backend connection manager
(`backend/app/api/v1/websockets.py`) is not in the source tree; the model
below follows spec §4.4: a per-job set of subscribed listeners, an
immediate snapshot on subscribe, fan-out of every transition, and — once
the job is terminal — exactly one final `complete`/`error` message after
which all subscribers are closed/evicted. -/

namespace ConnMgr

/-- Modelled from the spec §6: the `status` snapshot message pushed to
subscribers of a live job. -/
def snapshotMsg (j : Engine.JobState) : WSMessage :=
  { type := .status
    job_id := none
    status := some j.status
    progress := some j.progress
    error := if j.error = "" then none else some j.error
    result_data_id := j.resultDataRef
    message := none }

/-- Modelled from the spec §4.4/§6: the single final message delivered
when a job is terminal — `error` for a failed job, `complete` otherwise. -/
def finalMsg (j : Engine.JobState) : WSMessage :=
  { type := if j.status = .failed then .error else .complete
    job_id := none
    status := some j.status
    progress := some j.progress
    error := if j.error = "" then none else some j.error
    result_data_id := j.resultDataRef
    message := none }

/-- A message is final when its type is `complete` or `error`. -/
def isFinal (m : WSMessage) : Bool :=
  m.type ≠ .status

/-- One real-time connection: the messages delivered to it so far, and
whether it is still open (subscribed). -/
structure Conn where
  msgs : List WSMessage
  isOpen : Bool
deriving DecidableEq, Repr

/-- The connection manager's state for one job id: the job's engine
state and all connections ever opened for the job. -/
structure ManagerState where
  job : Engine.JobState
  conns : List Conn
deriving DecidableEq, Repr

/-- Initial manager state: a fresh `queued` job with no subscribers. -/
def initialManager (n : Nat) : ManagerState :=
  { job := Engine.initialJob n, conns := [] }

/-- Operations observable at the manager: a client subscribes, or the
engine performs a state transition (whose publish the manager fans out). -/
inductive MOp where
  | subscribe
  | transition (e : Engine.Event)
deriving DecidableEq, Repr

/-- Modelled from the spec §4.4:
* `subscribe` on a live job delivers an immediate snapshot and joins the
  subscriber set; on a terminal job it delivers the single final message
  and closes the connection at once (no replay of history);
* `transition e` advances the job and fans the resulting snapshot out to
  every open connection; if the new state is terminal the message is the
  final `complete`/`error` message and every subscriber is then
  closed/evicted. -/
def mstep (m : ManagerState) : MOp → Option ManagerState
  | .subscribe =>
      if m.job.status.isTerminal then
        some { m with conns := m.conns ++ [⟨[finalMsg m.job], false⟩] }
      else
        some { m with conns := m.conns ++ [⟨[snapshotMsg m.job], true⟩] }
  | .transition e =>
      (Engine.step m.job e).map fun j' =>
        { job := j'
          conns := m.conns.map fun c =>
            if c.isOpen then
              { msgs := c.msgs ++
                  [if j'.status.isTerminal then finalMsg j' else snapshotMsg j']
                isOpen := ! j'.status.isTerminal }
            else c }

/-- Run a sequence of manager operations. -/
def mrun (m : ManagerState) : List MOp → Option ManagerState
  | [] => some m
  | op :: ops =>
      match mstep m op with
      | some m' => mrun m' ops
      | none => none

end ConnMgr

/-! ## Storage facade

Modelled from the spec: `backend/app/services/storage_facade.py` is not in
the source tree; the model below follows spec §4.3 and the Phase 6 notes:
a `StorageMapping` backend (local filesystem directory or S3 bucket)
wrapped by a facade with `save`/`load`/`delete`/`exists`/`list`, where
`save` overwrites and `delete` of a missing key raises `NotFound`. -/

namespace Storage

/-- A byte string: the list of byte values of the payload. -/
abbrev Bytes := List Nat

/-- Modelled from the spec §7: the storage error taxonomy. -/
inductive StorageError where
  | notFound
  | ioError
  | permissionDenied
deriving DecidableEq, Repr

/-- Lookup of the first binding of a key in an association list. -/
def alFind : List (String × Bytes) → String → Option Bytes
  | [], _ => none
  | (k', v) :: rest, k => if k' = k then some v else alFind rest k

/-- Replace the first binding of `k` in place, or append a fresh one. -/
def alPut : List (String × Bytes) → String → Bytes → List (String × Bytes)
  | [], k, v => [(k, v)]
  | (k', v') :: rest, k, v =>
      if k' = k then (k, v) :: rest else (k', v') :: alPut rest k v

/-- Remove the first binding of `k`. -/
def alRemove : List (String × Bytes) → String → List (String × Bytes)
  | [], _ => []
  | (k', v') :: rest, k =>
      if k' = k then rest else (k', v') :: alRemove rest k

/-- Remove every binding of `k`. -/
def alEraseAll : List (String × Bytes) → String → List (String × Bytes)
  | [], _ => []
  | (k', v') :: rest, k =>
      if k' = k then alEraseAll rest k else (k', v') :: alEraseAll rest k

/-- Modelled from the spec / Phase 6 notes: `LocalFilesystemMapping` —
files of a local directory, keyed by relative path. -/
structure LocalFilesystemMapping where
  rootDir : String
  files : List (String × Bytes)
deriving DecidableEq, Repr

/-- Modelled from the spec / Phase 6 notes: `S3Mapping` — objects of a
bucket; an object PUT removes any previous object under the key and
stores the new bytes. -/
structure S3Mapping where
  bucket : String
  region : String
  objects : List (String × Bytes)
deriving DecidableEq, Repr

/-- Modelled from the spec §4.3: the storage backend selected by
configuration (local filesystem directory or object-storage bucket). -/
inductive ConfiguredStorage where
  | localFs (m : LocalFilesystemMapping)
  | s3 (m : S3Mapping)
deriving DecidableEq, Repr

/-- `save(key, bytes) -> ref`: overwrite-or-create, returning the key as
the stored reference. -/
def ConfiguredStorage.save : ConfiguredStorage → String → Bytes →
    ConfiguredStorage × String
  | .localFs m, k, v => (.localFs { m with files := alPut m.files k v }, k)
  | .s3 m, k, v =>
      (.s3 { m with objects := alEraseAll m.objects k ++ [(k, v)] }, k)

/-- `load(key) -> bytes`, raising `NotFound` on a missing key. -/
def ConfiguredStorage.load : ConfiguredStorage → String →
    Except StorageError Bytes
  | .localFs m, k =>
      match alFind m.files k with
      | some v => .ok v
      | none => .error .notFound
  | .s3 m, k =>
      match alFind m.objects k with
      | some v => .ok v
      | none => .error .notFound

/-- `exists(key) -> bool`. -/
def ConfiguredStorage.existsKey : ConfiguredStorage → String → Bool
  | .localFs m, k => (alFind m.files k).isSome
  | .s3 m, k => (alFind m.objects k).isSome

/-- `delete(key)`, raising `NotFound` on a missing key. -/
def ConfiguredStorage.delete : ConfiguredStorage → String →
    Except StorageError ConfiguredStorage
  | .localFs m, k =>
      match alFind m.files k with
      | some _ => .ok (.localFs { m with files := alRemove m.files k })
      | none => .error .notFound
  | .s3 m, k =>
      match alFind m.objects k with
      | some _ => .ok (.s3 { m with objects := alRemove m.objects k })
      | none => .error .notFound

/-- `list() -> sequence of keys`. -/
def ConfiguredStorage.listKeys : ConfiguredStorage → List String
  | .localFs m => m.files.map Prod.fst
  | .s3 m => m.objects.map Prod.fst

end Storage

/-! ## Workflow CRUD surface (src/frontend/src/services/api.ts)

`ApiClient.updateWorkflow(id, workflow)` (api.ts lines 126-129) issues
`PUT /workflows/{id}` with a `Partial<WorkflowCreate>` body.  The REST
handler behind it (`PUT /api/v1/workflows/{id}  # Update workflow`, with
an `updated_at` column per the implementation plan) is modelled as an
in-place field update of the workflow row with that id. -/

namespace Api

/-- `Partial<WorkflowCreate>` from `types/index.ts`: every field of
`WorkflowCreate` made optional. -/
structure WorkflowUpdate where
  name : Option String
  description : Option String
  steps : Option (List WorkflowStep)
  global_config : Option (List (String × String))
deriving DecidableEq, Repr

/-- The server-side store the `ApiClient` verbs act on: workflow rows and
job rows, keyed by id. -/
structure ServerState where
  workflows : List (String × Workflow)
  jobs : List (String × Job)
deriving DecidableEq, Repr

/-- First binding of a workflow id. -/
def findWorkflow : List (String × Workflow) → String → Option Workflow
  | [], _ => none
  | (k', v) :: rest, k => if k' = k then some v else findWorkflow rest k

/-- First binding of a job id. -/
def findJob : List (String × Job) → String → Option Job
  | [], _ => none
  | (k', v) :: rest, k => if k' = k then some v else findJob rest k

/-- Apply a `Partial<WorkflowCreate>` body to an existing workflow row:
present fields replace the stored ones, the id is kept, and `updated_at`
is bumped to the request time. -/
def applyUpdate (w : Workflow) (u : WorkflowUpdate) (now : String) :
    Workflow :=
  { w with
    name := u.name.getD w.name
    description := match u.description with
      | some d => some d
      | none => w.description
    steps := u.steps.getD w.steps
    global_config := match u.global_config with
      | some g => some g
      | none => w.global_config
    updated_at := now }

/-- Replace the workflow row with id `k` by `applyUpdate` of the body. -/
def putWorkflow : List (String × Workflow) → String → WorkflowUpdate →
    String → List (String × Workflow)
  | [], _, _, _ => []
  | (k', w) :: rest, k, u, now =>
      if k' = k then (k', applyUpdate w u now) :: rest
      else (k', w) :: putWorkflow rest k u now

/-- `ApiClient.updateWorkflow(id, workflow)` (api.ts lines 126-129), as
its effect on the server store: the workflow row with that id is updated
in place; job rows are untouched. -/
def updateWorkflow (st : ServerState) (id : String) (u : WorkflowUpdate)
    (now : String) : ServerState :=
  { st with workflows := putWorkflow st.workflows id u now }

end Api

/-! ## ExecutionMonitor display logic
(src/frontend/src/components/ExecutionMonitor.tsx lines 64-67) -/

namespace ExecutionMonitor

/-- `const status = liveStatus || currentJob?.status || 'queued'`
(ExecutionMonitor.tsx line 65).  `liveStatus` starts as `null` and holds
the most recent WebSocket-reported status; a `JobStatus` string is always
truthy, so the fallbacks fire exactly on `null`/`undefined`. -/
def displayedStatus (liveStatus : Option JobStatus) (currentJob : Option Job) :
    JobStatus :=
  match liveStatus with
  | some s => s
  | none =>
      match currentJob with
      | some j => j.status
      | none => .queued

/-- `const progress = liveProgress || currentJob?.progress || 0`
(ExecutionMonitor.tsx line 66).  `liveProgress` is a number initialised
to `0`; JavaScript `||` treats `0` (and `undefined`) as falsy. -/
def displayedProgress (liveProgress : Nat) (currentJob : Option Job) : Nat :=
  if liveProgress ≠ 0 then liveProgress
  else
    match currentJob with
    | some j => j.progress
    | none => 0

end ExecutionMonitor

/-! ## JobWebSocket message handling
(`websocket.ts`, unnamed source `part_012`, `JobWebSocket.connect`) -/

namespace JobWebSocket

/-- The `onmessage` handler installed by `JobWebSocket.connect`:

```
this.ws.onmessage = (event) => {
  try {
    const message: WSMessage = JSON.parse(event.data)
    this.onMessage(message)
  } catch (error) {
    console.error('Failed to parse WebSocket message:', error)
  }
}
```

`JSON.parse` is a platform primitive, so its outcome on the frame's
payload is taken as input: `Except.ok m` when the payload parses to the
message `m`, `Except.error e` when `JSON.parse` throws `e`.  The result
records which `onMessage` callback invocations the handler makes and
whether the handler itself returns normally. -/
def onmessage (parsed : Except String WSMessage) : List WSMessage × Bool :=
  match parsed with
  | .ok m => ([m], true)
  | .error _ => ([], true)

/-- The callback invocations over a sequence of received frames, each
frame given by its `JSON.parse` outcome. -/
def callbackCalls (frames : List (Except String WSMessage)) : List WSMessage :=
  frames.flatMap (fun f => (onmessage f).1)

end JobWebSocket

/-! ## Application store (`store.ts`, unnamed source `part_015`) -/

namespace Store

/-- `Partial<Job>`: every field of `Job` made optional, as spread over an
existing job by `{ ...existingJob, ...updates }`. -/
structure JobUpdate where
  id : Option String
  workflow_id : Option (Option String)
  status : Option JobStatus
  input_data_id : Option (Option String)
  result_data_id : Option (Option String)
  error : Option (Option String)
  progress : Option Nat
  logs : Option (Option (List String))
  created_at : Option String
  started_at : Option (Option String)
  completed_at : Option (Option String)
deriving DecidableEq, Repr

/-- `{ ...existingJob, ...updates }`: fields present in `updates` win. -/
def mergeJob (j : Job) (u : JobUpdate) : Job :=
  { id := u.id.getD j.id
    workflow_id := u.workflow_id.getD j.workflow_id
    status := u.status.getD j.status
    input_data_id := u.input_data_id.getD j.input_data_id
    result_data_id := u.result_data_id.getD j.result_data_id
    error := u.error.getD j.error
    progress := u.progress.getD j.progress
    logs := u.logs.getD j.logs
    created_at := u.created_at.getD j.created_at
    started_at := u.started_at.getD j.started_at
    completed_at := u.completed_at.getD j.completed_at }

/-- A JavaScript `Map<string, Job>`: entries in insertion order with
unique keys.  `get`. -/
def mapGet : List (String × Job) → String → Option Job
  | [], _ => none
  | (k', v) :: rest, k => if k' = k then some v else mapGet rest k

/-- `Map.set`: update the existing entry in place (keeping insertion
order), else append a new entry. -/
def mapSet : List (String × Job) → String → Job → List (String × Job)
  | [], k, v => [(k, v)]
  | (k', v') :: rest, k, v =>
      if k' = k then (k, v) :: rest else (k', v') :: mapSet rest k v

/-- The Zustand `AppState` of `store.ts`: the `activeJobs` map and the UI
state; the action closures live outside the modelled data. -/
structure AppState where
  activeJobs : List (String × Job)
  sidebarOpen : Bool
deriving DecidableEq, Repr

/-- `updateActiveJob(jobId, updates)` (`store.ts`):

```
set((state) => {
  const newMap = new Map(state.activeJobs)
  const existingJob = newMap.get(jobId)
  if (existingJob) {
    newMap.set(jobId, { ...existingJob, ...updates })
  }
  return { activeJobs: newMap }
})
```

The returned partial `{ activeJobs: newMap }` is merged into the state,
leaving every other field as it was. -/
def updateActiveJob (s : AppState) (jobId : String) (updates : JobUpdate) :
    AppState :=
  let newMap := s.activeJobs
  match mapGet newMap jobId with
  | some existingJob =>
      { s with activeJobs := mapSet newMap jobId (mergeJob existingJob updates) }
  | none => { s with activeJobs := newMap }

end Store

/-! ## Proof-side predicates and concrete instances -/

/-- Rank of a status in the §4.1 graph: `queued` before `running` before
the terminal states.  Every edge of the graph strictly increases it. -/
def JobStatus.rank : JobStatus → Nat
  | .queued => 0
  | .running => 1
  | _ => 2

namespace Engine

/-- The inductive invariant of the engine state machine: the
result/error fields match the status, and progress is exactly the
rounded step ratio. -/
def StateInv (s : JobState) : Prop :=
  (s.resultDataRef.isSome = true ↔ s.status = .completed) ∧
  (s.status ≠ .failed → s.error = "") ∧
  (s.status = .failed → s.error ≠ "") ∧
  s.progress = round100 s.stepsDone s.totalSteps ∧
  s.stepsDone ≤ s.totalSteps

end Engine

namespace ConnMgr

/-- The inductive invariant of the connection manager: while the job is
live every connection is open and has received no final message; once
the job is terminal every connection is closed and has received exactly
one final message, the final snapshot. -/
def MInv (m : ManagerState) : Prop :=
  (m.job.status.isTerminal = false →
    ∀ c ∈ m.conns, c.isOpen = true ∧ c.msgs.filter isFinal = []) ∧
  (m.job.status.isTerminal = true →
    ∀ c ∈ m.conns, c.isOpen = false ∧ c.msgs.filter isFinal = [finalMsg m.job])

end ConnMgr

namespace Api

/-- A one-step workflow, referenced by the job `exampleJob`. -/
def exampleWorkflow : Workflow :=
  { id := "w1"
    name := "wf"
    description := none
    steps := [{ type := .loading, config := [], require_approval := none }]
    global_config := none
    created_at := "t0"
    updated_at := "t0" }

/-- A job referencing `exampleWorkflow`. -/
def exampleJob : Job :=
  { id := "j1"
    workflow_id := some "w1"
    status := .queued
    input_data_id := none
    result_data_id := none
    error := none
    progress := 0
    logs := none
    created_at := "t0"
    started_at := none
    completed_at := none }

/-- A server store holding `exampleWorkflow` and the job referencing it. -/
def exampleState : ServerState :=
  { workflows := [("w1", exampleWorkflow)], jobs := [("j1", exampleJob)] }

/-- A `PUT /workflows/w1` body replacing the step sequence. -/
def exampleUpdate : WorkflowUpdate :=
  { name := none
    description := none
    steps := some [{ type := .preparing, config := [("target", "cosmo-ready")],
                     require_approval := none }]
    global_config := none }

end Api

namespace Engine

/-- The §8 scenario: a two-step workflow dispatched and executed to
completion. -/
def demoRun : List Event :=
  [.dispatch 0, .stepDone, .stepDone, .allStepsDone "result" 7]

/-- The final state of `demoRun` from `initialJob 2`. -/
def demoFinal : JobState :=
  { status := .completed
    progress := 100
    stepsDone := 2
    totalSteps := 2
    resultDataRef := some "result"
    error := ""
    startedAt := some 0
    completedAt := some 7 }

end Engine

namespace ConnMgr

/-- A manager history: one client subscribes while the job is queued,
the job runs to completion, then a second client subscribes late. -/
def demoOps : List MOp :=
  [.subscribe, .transition (.dispatch 0), .transition (.allStepsDone "r" 3),
   .subscribe]

/-- The manager state after `demoOps` from `initialManager 0`. -/
def demoMgr : ManagerState :=
  { job :=
      { status := .completed
        progress := 0
        stepsDone := 0
        totalSteps := 0
        resultDataRef := some "r"
        error := ""
        startedAt := some 0
        completedAt := some 3 }
    conns :=
      [{ msgs :=
           [{ type := .status, job_id := none, status := some .queued,
              progress := some 0, error := none, result_data_id := none,
              message := none },
            { type := .status, job_id := none, status := some .running,
              progress := some 0, error := none, result_data_id := none,
              message := none },
            { type := .complete, job_id := none, status := some .completed,
              progress := some 0, error := none, result_data_id := some "r",
              message := none }]
         isOpen := false },
       { msgs :=
           [{ type := .complete, job_id := none, status := some .completed,
              progress := some 0, error := none, result_data_id := some "r",
              message := none }]
         isOpen := false }] }

end ConnMgr

namespace ExecutionMonitor

/-- A fetched job with non-zero progress, as displayed by the monitor. -/
def demoJob : Job :=
  { id := "j9"
    workflow_id := none
    status := .running
    input_data_id := none
    result_data_id := none
    error := none
    progress := 42
    logs := none
    created_at := "t"
    started_at := some "t"
    completed_at := none }

end ExecutionMonitor

namespace Store

/-- A store state holding one monitored job. -/
def demoState : AppState :=
  { activeJobs := [("j9", ExecutionMonitor.demoJob)], sidebarOpen := true }

/-- A `Partial<Job>` update touching only `progress` and `status`. -/
def demoUpdate : JobUpdate :=
  { id := none
    workflow_id := none
    status := some .completed
    input_data_id := none
    result_data_id := none
    error := none
    progress := some 100
    logs := none
    created_at := none
    started_at := none
    completed_at := none }

end Store

/-! ## Engine lemmas -/

namespace Engine

theorem round100_zero (n : Nat) : round100 0 n = 0 := by
  unfold round100
  cases n with
  | zero => rfl
  | succ m => exact Nat.div_eq_of_lt (by omega)

theorem round100_mono {i j : Nat} (n : Nat) (h : i ≤ j) :
    round100 i n ≤ round100 j n := by
  unfold round100
  exact Nat.div_le_div_right (by omega)

theorem round100_full (n : Nat) (hn : 1 ≤ n) : round100 n n = 100 := by
  unfold round100
  have h1 : 200 * n + n = n + 2 * n * 100 := by ring
  rw [h1, Nat.add_mul_div_left _ _ (by omega), Nat.div_eq_of_lt (by omega)]

theorem run_induction {P : JobState → Prop}
    (hstep : ∀ s e s', P s → step s e = some s' → P s') :
    ∀ (es : List Event) (s0 s : JobState),
      P s0 → run s0 es = some s → P s := by
  intro es
  induction es with
  | nil =>
      intro s0 s h0 hr
      simp only [run, Option.some_inj] at hr
      exact hr ▸ h0
  | cons e es ih =>
      intro s0 s h0 hr
      rw [run] at hr
      cases hst : step s0 e with
      | none => rw [hst] at hr; exact absurd hr (by simp)
      | some s1 => rw [hst] at hr; exact ih s1 s (hstep s0 e s1 h0 hst) hr

theorem terminal_absorbing (s : JobState) (h : s.status.isTerminal = true)
    (e : Event) : step s e = none := by
  cases e <;> cases hs : s.status <;>
    simp_all [step, JobStatus.isTerminal]

theorem stateInv_initial (n : Nat) : StateInv (initialJob n) := by
  refine ⟨by simp [initialJob], by simp [initialJob], by simp [initialJob],
    ?_, by simp [initialJob]⟩
  simp [initialJob, round100_zero]

theorem stateInv_step (s : JobState) (e : Event) (s' : JobState)
    (hI : StateInv s) (h : step s e = some s') : StateInv s' := by
  obtain ⟨h1, h2, h3, h4, h5⟩ := hI
  cases e with
  | dispatch t =>
      rw [step] at h
      split_ifs at h with hc
      cases h
      exact ⟨by simp_all, by simp_all, by simp, by simp_all, by simp_all⟩
  | stepDone =>
      rw [step] at h
      split_ifs at h with hc
      cases h
      exact ⟨by simp_all, by simp_all, by simp_all, by simp, hc.2⟩
  | allStepsDone ref t =>
      rw [step] at h
      split_ifs at h with hc
      cases h
      exact ⟨by simp, by simp_all, by simp_all, by simp_all, by simp_all⟩
  | handlerError msg t =>
      rw [step] at h
      split_ifs at h with hc
      cases h
      refine ⟨by simp_all, by simp_all, ?_, by simp_all, by simp_all⟩
      intro _
      simpa using hc.2
  | timeout msg t =>
      rw [step] at h
      split_ifs at h with hc
      cases h
      refine ⟨by simp_all, by simp_all, ?_, by simp_all, by simp_all⟩
      intro _
      simpa using hc.2
  | cancelRequest t =>
      rw [step] at h
      split_ifs at h with hc
      cases h
      rcases hc with hq | hr
      · exact ⟨by simp_all, by simp_all, by simp, by simp_all, by simp_all⟩
      · exact ⟨by simp_all, by simp_all, by simp, by simp_all, by simp_all⟩

theorem run_stateInv (n : Nat) (es : List Event) (s : JobState)
    (h : run (initialJob n) es = some s) : StateInv s :=
  run_induction stateInv_step es (initialJob n) s (stateInv_initial n) h

theorem step_totalSteps (s : JobState) (e : Event) (s' : JobState)
    (h : step s e = some s') : s'.totalSteps = s.totalSteps := by
  cases e <;> rw [step] at h <;> split_ifs at h <;> (cases h; rfl)

theorem run_totalSteps (n : Nat) (es : List Event) (s : JobState)
    (h : run (initialJob n) es = some s) : s.totalSteps = n :=
  run_induction (P := fun t => t.totalSteps = n)
    (fun s e s' hP hs => (step_totalSteps s e s' hs).trans hP)
    es (initialJob n) s rfl h

theorem step_progress_mono (s : JobState) (e : Event) (s' : JobState)
    (hI : StateInv s) (h : step s e = some s') : s.progress ≤ s'.progress := by
  obtain ⟨_, _, _, h4, _⟩ := hI
  cases e with
  | stepDone =>
      rw [step] at h
      split_ifs at h with hc
      cases h
      simp only [h4]
      exact round100_mono s.totalSteps (Nat.le_succ _)
  | dispatch t =>
      rw [step] at h
      split_ifs at h
      cases h
      exact le_refl _
  | allStepsDone ref t =>
      rw [step] at h
      split_ifs at h
      cases h
      exact le_refl _
  | handlerError msg t =>
      rw [step] at h
      split_ifs at h
      cases h
      exact le_refl _
  | timeout msg t =>
      rw [step] at h
      split_ifs at h
      cases h
      exact le_refl _
  | cancelRequest t =>
      rw [step] at h
      split_ifs at h
      cases h
      exact le_refl _

theorem step_status (s : JobState) (e : Event) (s' : JobState)
    (h : step s e = some s') :
    s'.status = s.status ∨ allowedTransition s.status s'.status = true := by
  cases e with
  | dispatch t =>
      rw [step] at h
      split_ifs at h with hc
      cases h
      right
      rw [hc]
      rfl
  | stepDone =>
      rw [step] at h
      split_ifs at h
      cases h
      left
      rfl
  | allStepsDone ref t =>
      rw [step] at h
      split_ifs at h with hc
      cases h
      right
      rw [hc.1]
      rfl
  | handlerError msg t =>
      rw [step] at h
      split_ifs at h with hc
      cases h
      right
      rw [hc.1]
      rfl
  | timeout msg t =>
      rw [step] at h
      split_ifs at h with hc
      cases h
      right
      rw [hc.1]
      rfl
  | cancelRequest t =>
      rw [step] at h
      split_ifs at h with hc
      cases h
      right
      rcases hc with hq | hr
      · rw [hq]; rfl
      · rw [hr]; rfl

theorem allowedTransition_rank {a b : JobStatus}
    (h : allowedTransition a b = true) : a.rank < b.rank := by
  cases a <;> cases b <;> simp_all [allowedTransition, JobStatus.rank]

theorem statusChanges_chain :
    ∀ (es : List Event) (s : JobState) (cs : List JobStatus),
      statusChanges s es = some cs →
      List.Chain (fun a b => allowedTransition a b = true) s.status cs := by
  intro es
  induction es with
  | nil =>
      intro s cs h
      simp only [statusChanges, Option.some_inj] at h
      exact h ▸ List.Chain.nil
  | cons e es ih =>
      intro s cs h
      rw [statusChanges] at h
      cases hst : step s e with
      | none => rw [hst] at h; exact absurd h (by simp)
      | some s' =>
          rw [hst] at h
          simp only [Option.map_eq_some'] at h
          obtain ⟨cs', hcs', hif⟩ := h
          by_cases he : s'.status = s.status
          · rw [if_pos he] at hif
            subst hif
            exact he ▸ ih s' cs' hcs'
          · rw [if_neg he] at hif
            subst hif
            rcases step_status s e s' hst with heq | hedge
            · exact absurd heq he
            · exact List.Chain.cons hedge (ih s' cs' hcs')

theorem chain_rank_nodup (q : JobStatus) (cs : List JobStatus)
    (h : List.Chain (fun a b => allowedTransition a b = true) q cs) :
    (q :: cs).Nodup := by
  have hlt : List.Chain (fun a b => a.rank < b.rank) q cs :=
    List.Chain.imp (fun a b hab => allowedTransition_rank hab) h
  have hpw : List.Pairwise (fun a b : JobStatus => a.rank < b.rank) (q :: cs) :=
    (@List.chain_iff_pairwise JobStatus (fun a b => a.rank < b.rank)
      ⟨fun _ _ _ hab hbc => Nat.lt_trans hab hbc⟩ q cs).mp hlt
  exact hpw.imp (fun hab => by intro hEq; subst hEq; exact Nat.lt_irrefl _ hab)

end Engine

/-! ## Claims C1-C3: engine state machine -/

/-- C1: in every reachable state of the job state machine, a `completed`
job has a non-null `result_data_ref` and an empty `error`; a `failed`
job has a null `result_data_ref` and a non-empty `error`; no reachable
state has both a populated `error` and a populated `result_data_ref`;
and `result_data_ref` is set exactly when the status is `completed`. -/
theorem c1_terminal_state_fields (n : Nat) (es : List Engine.Event)
    (s : Engine.JobState) (h : Engine.run (Engine.initialJob n) es = some s) :
    (s.status = .completed → s.resultDataRef.isSome = true ∧ s.error = "") ∧
    (s.status = .failed → s.resultDataRef = none ∧ s.error ≠ "") ∧
    ¬(s.resultDataRef.isSome = true ∧ s.error ≠ "") ∧
    (s.resultDataRef.isSome = true ↔ s.status = .completed) := by
  obtain ⟨h1, h2, h3, _, _⟩ := Engine.run_stateInv n es s h
  refine ⟨?_, ?_, ?_, h1⟩
  · intro hc
    exact ⟨h1.mpr hc, h2 (by simp [hc])⟩
  · intro hf
    refine ⟨?_, h3 hf⟩
    have hne : s.status ≠ JobStatus.completed := by simp [hf]
    cases hrd : s.resultDataRef with
    | none => rfl
    | some r => exact absurd (h1.mp (by simp [hrd])) hne
  · rintro ⟨hsome, herr⟩
    exact herr (h2 (by simp [h1.mp hsome]))

/-- Witness for C1: the §8 two-step success scenario reaches a concrete
completed state on which the biconditional of C1 holds. -/
theorem c1_terminal_state_fields_witness :
    Engine.run (Engine.initialJob 2) Engine.demoRun = some Engine.demoFinal ∧
    (Engine.demoFinal.resultDataRef.isSome = true ↔
      Engine.demoFinal.status = .completed) :=
  ⟨by decide,
    (c1_terminal_state_fields 2 Engine.demoRun Engine.demoFinal (by decide)).2.2.2⟩

/-- C2: along any run of the state machine, the de-duplicated status
path starts at `queued`, each consecutive pair is an edge of the §4.1
graph `queued → running → {completed | failed | cancelled}` (with
`queued → cancelled`), no status recurs after being left (the path has
no duplicates, so each terminal status is entered at most once and only
after `queued`), and no transition leaves a terminal status. -/
theorem c2_status_path (n : Nat) (es : List Engine.Event)
    (p : List JobStatus)
    (hp : Engine.statusPath (Engine.initialJob n) es = some p) :
    p.head? = some JobStatus.queued ∧
    List.Chain' (fun a b => Engine.allowedTransition a b = true) p ∧
    p.Nodup ∧
    (∀ s, Engine.run (Engine.initialJob n) es = some s →
      s.status.isTerminal = true → ∀ e, Engine.step s e = none) := by
  rw [Engine.statusPath] at hp
  cases hcs : Engine.statusChanges (Engine.initialJob n) es with
  | none => rw [hcs] at hp; exact absurd hp (by simp)
  | some cs =>
      rw [hcs] at hp
      simp only [Option.map_some', Option.some_inj] at hp
      subst hp
      have hchain := Engine.statusChanges_chain es (Engine.initialJob n) cs hcs
      exact ⟨rfl, hchain, Engine.chain_rank_nodup _ cs hchain,
        fun s _ hterm e => Engine.terminal_absorbing s hterm e⟩

/-- Witness for C2: the §8 two-step success scenario yields the concrete
status path `[queued, running, completed]`, which has no duplicates. -/
theorem c2_status_path_witness :
    Engine.statusPath (Engine.initialJob 2) Engine.demoRun =
      some [JobStatus.queued, .running, .completed] ∧
    ([JobStatus.queued, .running, .completed] : List JobStatus).Nodup :=
  ⟨by decide,
    (c2_status_path 2 Engine.demoRun [.queued, .running, .completed]
      (by decide)).2.2.1⟩

/-- C3: in every reachable state of an `n`-step job, progress equals
`round(100 * stepsDone / n)` (in particular `0` before any step and
`100` after step `n` of `n`), progress never decreases across a
transition, progress is frozen once the job is terminal (no transition
applies), and the concrete two-step workflow produces exactly the
progress sequence `0, 50, 100` on success. -/
theorem c3_progress_formula (n : Nat) (hn : 1 ≤ n) (es : List Engine.Event)
    (s : Engine.JobState) (h : Engine.run (Engine.initialJob n) es = some s) :
    s.progress = Engine.round100 s.stepsDone n ∧
    Engine.round100 0 n = 0 ∧
    Engine.round100 n n = 100 ∧
    (∀ e s', Engine.step s e = some s' → s.progress ≤ s'.progress) ∧
    (s.status.isTerminal = true → ∀ e, Engine.step s e = none) ∧
    ((Engine.traceStates (Engine.initialJob 2)
        [.dispatch 0, .stepDone, .stepDone, .allStepsDone "result" 1]).map
      (fun ss => (ss.map Engine.JobState.progress).destutter (· ≠ ·))
      = some [0, 50, 100]) := by
  have hInv := Engine.run_stateInv n es s h
  have htot := Engine.run_totalSteps n es s h
  refine ⟨?_, Engine.round100_zero n, Engine.round100_full n hn,
    fun e s' hs => Engine.step_progress_mono s e s' hInv hs,
    fun hterm e => Engine.terminal_absorbing s hterm e, by decide⟩
  rw [hInv.2.2.2.1, htot]

/-- Witness for C3: the §8 two-step success run ends in a concrete state
whose progress matches the rounded step ratio. -/
theorem c3_progress_formula_witness :
    1 ≤ 2 ∧
    Engine.run (Engine.initialJob 2) Engine.demoRun = some Engine.demoFinal ∧
    Engine.demoFinal.progress =
      Engine.round100 Engine.demoFinal.stepsDone 2 :=
  ⟨by decide, by decide,
    (c3_progress_formula 2 (by decide) Engine.demoRun Engine.demoFinal
      (by decide)).1⟩

/-! ## Connection manager lemmas -/

namespace ConnMgr

theorem isFinal_finalMsg (j : Engine.JobState) :
    isFinal (finalMsg j) = true := by
  rw [finalMsg, isFinal]
  split_ifs <;> simp

theorem isFinal_snapshotMsg (j : Engine.JobState) :
    isFinal (snapshotMsg j) = false := by
  rw [snapshotMsg, isFinal]
  simp

theorem mrun_induction {P : ManagerState → Prop}
    (hstep : ∀ m op m', P m → mstep m op = some m' → P m') :
    ∀ (ops : List MOp) (m0 m : ManagerState),
      P m0 → mrun m0 ops = some m → P m := by
  intro ops
  induction ops with
  | nil =>
      intro m0 m h0 hr
      simp only [mrun, Option.some_inj] at hr
      exact hr ▸ h0
  | cons op ops ih =>
      intro m0 m h0 hr
      rw [mrun] at hr
      cases hst : mstep m0 op with
      | none => rw [hst] at hr; exact absurd hr (by simp)
      | some m1 => rw [hst] at hr; exact ih m1 m (hstep m0 op m1 h0 hst) hr

theorem mInv_initial (n : Nat) : MInv (initialManager n) :=
  ⟨fun _ c hc => absurd hc (by simp [initialManager]),
   fun _ c hc => absurd hc (by simp [initialManager])⟩

theorem mInv_mstep (m : ManagerState) (op : MOp) (m' : ManagerState)
    (hI : MInv m) (h : mstep m op = some m') : MInv m' := by
  obtain ⟨hLive, hTerm⟩ := hI
  cases op with
  | subscribe =>
      rw [mstep] at h
      split_ifs at h with hterm
      · cases h
        refine ⟨fun hf => absurd hterm (by simp [hf]), fun _ c hc => ?_⟩
        simp only [List.mem_append, List.mem_singleton] at hc
        rcases hc with hc | hc
        · exact hTerm hterm c hc
        · subst hc
          exact ⟨rfl, by simp [List.filter, isFinal_finalMsg]⟩
      · cases h
        have hlive : m.job.status.isTerminal = false := by
          cases hb : m.job.status.isTerminal
          · rfl
          · exact absurd hb hterm
        refine ⟨fun _ c hc => ?_, fun hf => absurd hf hterm⟩
        simp only [List.mem_append, List.mem_singleton] at hc
        rcases hc with hc | hc
        · exact hLive hlive c hc
        · subst hc
          exact ⟨rfl, by simp [List.filter, isFinal_snapshotMsg]⟩
  | transition e =>
      rw [mstep] at h
      cases hst : Engine.step m.job e with
      | none => rw [hst] at h; exact absurd h (by simp)
      | some j' =>
          rw [hst] at h
          simp only [Option.map_some', Option.some_inj] at h
          subst h
          have hlive : m.job.status.isTerminal = false := by
            cases hb : m.job.status.isTerminal
            · rfl
            · exact absurd hst (by simp [Engine.terminal_absorbing m.job hb e])
          have hconns := hLive hlive
          cases hterm' : j'.status.isTerminal with
          | true =>
              refine ⟨?_, fun _ c hc => ?_⟩
              · intro hf
                rw [hterm'] at hf
                cases hf
              simp only [List.mem_map] at hc
              obtain ⟨c0, hc0, hceq⟩ := hc
              obtain ⟨hopen, hfilter⟩ := hconns c0 hc0
              subst hceq
              simp only [hopen, hterm', if_true]
              refine ⟨by simp, ?_⟩
              rw [List.filter_append, hfilter]
              simp [List.filter, isFinal_finalMsg]
          | false =>
              refine ⟨fun _ c hc => ?_, ?_⟩
              · simp only [List.mem_map] at hc
                obtain ⟨c0, hc0, hceq⟩ := hc
                obtain ⟨hopen, hfilter⟩ := hconns c0 hc0
                subst hceq
                simp only [hopen, hterm', if_true]
                refine ⟨by simp, ?_⟩
                rw [List.filter_append, hfilter]
                simp [List.filter, isFinal_snapshotMsg]
              · intro hf
                rw [hterm'] at hf
                cases hf

theorem mrun_mInv (n : Nat) (ops : List MOp) (m : ManagerState)
    (h : mrun (initialManager n) ops = some m) : MInv m :=
  mrun_induction mInv_mstep ops (initialManager n) m (mInv_initial n) h

end ConnMgr

/-- C4: once the job has reached a terminal state, every connection for
that job id has been closed/evicted and has received exactly one final
`complete`/`error` message, which reflects the final state; and a
subscriber connecting after the terminal state was reached receives
exactly that one final message (never an earlier intermediate snapshot,
never a second message) and is closed at once. -/
theorem c4_terminal_exactly_one_final (n : Nat) (ops : List ConnMgr.MOp)
    (m : ConnMgr.ManagerState)
    (hrun : ConnMgr.mrun (ConnMgr.initialManager n) ops = some m)
    (hterm : m.job.status.isTerminal = true) :
    (∀ c ∈ m.conns, c.isOpen = false ∧
      c.msgs.filter ConnMgr.isFinal = [ConnMgr.finalMsg m.job]) ∧
    ConnMgr.mstep m .subscribe =
      some { m with conns := m.conns ++ [⟨[ConnMgr.finalMsg m.job], false⟩] } := by
  have hI := ConnMgr.mrun_mInv n ops m hrun
  refine ⟨hI.2 hterm, ?_⟩
  rw [ConnMgr.mstep, if_pos hterm]

/-- Witness for C4: a concrete history in which one client subscribes
early, the job completes, and a second client subscribes late; the
late subscriber receives exactly the single final message. -/
theorem c4_terminal_exactly_one_final_witness :
    ConnMgr.mrun (ConnMgr.initialManager 0) ConnMgr.demoOps =
      some ConnMgr.demoMgr ∧
    ConnMgr.demoMgr.job.status.isTerminal = true ∧
    ConnMgr.mstep ConnMgr.demoMgr .subscribe =
      some { ConnMgr.demoMgr with
             conns := ConnMgr.demoMgr.conns ++
               [⟨[ConnMgr.finalMsg ConnMgr.demoMgr.job], false⟩] } :=
  ⟨by decide, by decide,
    (c4_terminal_exactly_one_final 0 ConnMgr.demoOps ConnMgr.demoMgr
      (by decide) (by decide)).2⟩

/-! ## Storage lemmas -/

namespace Storage

theorem alFind_alPut (l : List (String × Bytes)) (k : String) (v : Bytes) :
    alFind (alPut l k v) k = some v := by
  induction l with
  | nil => simp [alPut, alFind]
  | cons p rest ih =>
      obtain ⟨k', v'⟩ := p
      rw [alPut]
      by_cases hk : k' = k
      · rw [if_pos hk]
        simp [alFind]
      · rw [if_neg hk]
        rw [alFind, if_neg hk]
        exact ih

theorem alFind_eraseAll_append (l : List (String × Bytes)) (k : String)
    (v : Bytes) : alFind (alEraseAll l k ++ [(k, v)]) k = some v := by
  induction l with
  | nil => simp [alEraseAll, alFind]
  | cons p rest ih =>
      obtain ⟨k', v'⟩ := p
      rw [alEraseAll]
      by_cases hk : k' = k
      · rw [if_pos hk]
        exact ih
      · rw [if_neg hk]
        rw [List.cons_append, alFind, if_neg hk]
        exact ih

end Storage

/-- C5: on every configured storage backend (local filesystem or object
store), for every key and every byte string — the empty byte string
included — `save(k, b)` followed by `load(k)` returns exactly `b`,
whether or not `k` already held a value (`save` overwrites). -/
theorem c5_storage_roundtrip (s : Storage.ConfiguredStorage) (k : String)
    (b : Storage.Bytes) :
    (s.save k b).1.load k = Except.ok b := by
  cases s with
  | localFs m =>
      simp [Storage.ConfiguredStorage.save, Storage.ConfiguredStorage.load,
        Storage.alFind_alPut]
  | s3 m =>
      simp [Storage.ConfiguredStorage.save, Storage.ConfiguredStorage.load,
        Storage.alFind_eraseAll_append]

/-- C6: on every configured storage backend, `delete(k)` raises
`NotFound` exactly when `exists(k)` is false, and succeeds on an
existing key. -/
theorem c6_delete_missing_notFound (s : Storage.ConfiguredStorage)
    (k : String) :
    (s.existsKey k = false →
      s.delete k = Except.error Storage.StorageError.notFound) ∧
    (s.existsKey k = true → (s.delete k).isOk = true) := by
  cases s with
  | localFs m =>
      refine ⟨?_, ?_⟩
      · intro h
        rw [Storage.ConfiguredStorage.existsKey] at h
        cases hf : Storage.alFind m.files k with
        | none => simp [Storage.ConfiguredStorage.delete, hf]
        | some v => rw [hf] at h; simp at h
      · intro h
        rw [Storage.ConfiguredStorage.existsKey] at h
        cases hf : Storage.alFind m.files k with
        | none => rw [hf] at h; simp at h
        | some v => simp [Storage.ConfiguredStorage.delete, hf, Except.isOk,
            Except.toBool]
  | s3 m =>
      refine ⟨?_, ?_⟩
      · intro h
        rw [Storage.ConfiguredStorage.existsKey] at h
        cases hf : Storage.alFind m.objects k with
        | none => simp [Storage.ConfiguredStorage.delete, hf]
        | some v => rw [hf] at h; simp at h
      · intro h
        rw [Storage.ConfiguredStorage.existsKey] at h
        cases hf : Storage.alFind m.objects k with
        | none => rw [hf] at h; simp at h
        | some v => simp [Storage.ConfiguredStorage.delete, hf, Except.isOk,
            Except.toBool]

/-- Witness for C6: a concrete empty local store where `delete` of a
missing key raises `NotFound`, and a concrete S3 store where `delete`
of an existing key succeeds. -/
theorem c6_delete_missing_notFound_witness :
    (Storage.ConfiguredStorage.localFs ⟨"/data", []⟩).existsKey "a" = false ∧
    (Storage.ConfiguredStorage.localFs ⟨"/data", []⟩).delete "a" =
      Except.error Storage.StorageError.notFound ∧
    (Storage.ConfiguredStorage.s3
      ⟨"bkt", "us-east-1", [("b", [1, 2])]⟩).existsKey "b" = true ∧
    ((Storage.ConfiguredStorage.s3
      ⟨"bkt", "us-east-1", [("b", [1, 2])]⟩).delete "b").isOk = true :=
  ⟨by decide,
    (c6_delete_missing_notFound (Storage.ConfiguredStorage.localFs
      ⟨"/data", []⟩) "a").1 (by decide),
    by decide,
    (c6_delete_missing_notFound (Storage.ConfiguredStorage.s3
      ⟨"bkt", "us-east-1", [("b", [1, 2])]⟩) "b").2 (by decide)⟩

/-! ## Workflow update (C7) -/

namespace Api

theorem findWorkflow_putWorkflow_self (l : List (String × Workflow))
    (k : String) (u : WorkflowUpdate) (now : String) :
    findWorkflow (putWorkflow l k u now) k =
      (findWorkflow l k).map (fun w => applyUpdate w u now) := by
  induction l with
  | nil => rfl
  | cons p rest ih =>
      obtain ⟨k', w⟩ := p
      rw [putWorkflow]
      by_cases hk : k' = k
      · rw [if_pos hk]
        rw [findWorkflow, if_pos hk, findWorkflow, if_pos hk]
        rfl
      · rw [if_neg hk]
        rw [findWorkflow, if_neg hk, findWorkflow, if_neg hk]
        exact ih

theorem findWorkflow_putWorkflow_other (l : List (String × Workflow))
    (k id : String) (u : WorkflowUpdate) (now : String) (hk : k ≠ id) :
    findWorkflow (putWorkflow l id u now) k = findWorkflow l k := by
  induction l with
  | nil => rfl
  | cons p rest ih =>
      obtain ⟨k', w⟩ := p
      rw [putWorkflow]
      by_cases hid : k' = id
      · rw [if_pos hid]
        have hne : k' ≠ k := fun hEq => hk (hEq ▸ hid)
        rw [findWorkflow, if_neg hne, findWorkflow, if_neg hne]
      · rw [if_neg hid]
        rw [findWorkflow, findWorkflow]
        by_cases hkk : k' = k
        · rw [if_pos hkk, if_pos hkk]
        · rw [if_neg hkk, if_neg hkk]
          exact ih

end Api

/-- Counterexample for C7: in the concrete server store `exampleState`,
the job `j1` references the workflow `w1`; `updateWorkflow` (the
frontend's `PUT /workflows/{id}`) replaces that workflow's step sequence
at the very same id — the referenced `WorkflowDefinition` is edited in
place, no new version is created — refuting the claim that no operation
changes a referenced workflow's step sequence in place. -/
theorem c7_counterexample :
    Api.findJob
      (Api.updateWorkflow Api.exampleState "w1" Api.exampleUpdate "t1").jobs
      "j1" = some Api.exampleJob ∧
    Api.exampleJob.workflow_id = some "w1" ∧
    (Api.findWorkflow
      (Api.updateWorkflow Api.exampleState "w1" Api.exampleUpdate "t1").workflows
      "w1").map Workflow.id = some "w1" ∧
    (Api.findWorkflow
      (Api.updateWorkflow Api.exampleState "w1" Api.exampleUpdate "t1").workflows
      "w1").map Workflow.steps ≠
      (Api.findWorkflow Api.exampleState.workflows "w1").map Workflow.steps := by
  refine ⟨by decide, by decide, by decide, by decide⟩

/-- C7 (amended): `updateWorkflow` edits the `WorkflowDefinition` in
place at the same id — even when it is referenced by a Job — rather than
creating a new version; every Job record, and in particular its
`workflow_id` reference, is left unchanged by the edit, and workflows
with other ids are untouched. -/
theorem c7_amended_update_in_place (st : Api.ServerState) (id : String)
    (u : Api.WorkflowUpdate) (now : String) :
    (Api.updateWorkflow st id u now).jobs = st.jobs ∧
    (∀ w, Api.findWorkflow st.workflows id = some w →
      Api.findWorkflow (Api.updateWorkflow st id u now).workflows id =
        some (Api.applyUpdate w u now) ∧
      (Api.applyUpdate w u now).id = w.id) ∧
    (∀ k, k ≠ id →
      Api.findWorkflow (Api.updateWorkflow st id u now).workflows k =
        Api.findWorkflow st.workflows k) := by
  refine ⟨rfl, ?_, ?_⟩
  · intro w hw
    refine ⟨?_, rfl⟩
    rw [Api.updateWorkflow]
    rw [Api.findWorkflow_putWorkflow_self, hw]
    rfl
  · intro k hk
    rw [Api.updateWorkflow]
    exact Api.findWorkflow_putWorkflow_other st.workflows k id u now hk

/-- Witness for C7 (amended): applied to the concrete store
`exampleState`, the update leaves the job rows unchanged and replaces
the workflow row `w1` in place. -/
theorem c7_amended_update_in_place_witness :
    Api.findWorkflow Api.exampleState.workflows "w1" =
      some Api.exampleWorkflow ∧
    (Api.updateWorkflow Api.exampleState "w1" Api.exampleUpdate "t1").jobs =
      Api.exampleState.jobs ∧
    Api.findWorkflow
      (Api.updateWorkflow Api.exampleState "w1" Api.exampleUpdate "t1").workflows
      "w1" = some (Api.applyUpdate Api.exampleWorkflow Api.exampleUpdate "t1") :=
  ⟨by decide,
    (c7_amended_update_in_place Api.exampleState "w1" Api.exampleUpdate "t1").1,
    ((c7_amended_update_in_place Api.exampleState "w1" Api.exampleUpdate
      "t1").2.1 Api.exampleWorkflow (by decide)).1⟩

/-! ## Claims C8-C10: frontend components -/

/-- C8: the monitor displays the most recent WebSocket-reported status
when one exists, else the fetched job's status, else `queued`; it
displays the WebSocket-reported progress when non-zero, else the fetched
job's progress, else `0` — so a live report of progress `0` never lowers
the displayed progress of a fetched job with positive progress to `0`. -/
theorem c8_monitor_display :
    (∀ (p : Nat) (job : Option Job), p ≠ 0 →
      ExecutionMonitor.displayedProgress p job = p) ∧
    (∀ j : Job, ExecutionMonitor.displayedProgress 0 (some j) = j.progress) ∧
    ExecutionMonitor.displayedProgress 0 none = 0 ∧
    (∀ j : Job, 0 < j.progress →
      ExecutionMonitor.displayedProgress 0 (some j) ≠ 0) ∧
    (∀ (s : JobStatus) (job : Option Job),
      ExecutionMonitor.displayedStatus (some s) job = s) ∧
    (∀ j : Job, ExecutionMonitor.displayedStatus none (some j) = j.status) ∧
    ExecutionMonitor.displayedStatus none none = .queued := by
  refine ⟨?_, ?_, rfl, ?_, fun s job => rfl, fun j => rfl, rfl⟩
  · intro p job hp
    unfold ExecutionMonitor.displayedProgress
    rw [if_pos hp]
  · intro j
    rfl
  · intro j hj
    unfold ExecutionMonitor.displayedProgress
    rw [if_neg (fun hq => hq rfl)]
    show j.progress ≠ 0
    omega

/-- Witness for C8: with a live progress report of `0` and a fetched job
at progress `42`, the monitor keeps displaying `42`, and a live report
of `5` displays `5`. -/
theorem c8_monitor_display_witness :
    (5 : Nat) ≠ 0 ∧
    ExecutionMonitor.displayedProgress 5 none = 5 ∧
    0 < ExecutionMonitor.demoJob.progress ∧
    ExecutionMonitor.displayedProgress 0 (some ExecutionMonitor.demoJob) ≠ 0 :=
  ⟨by decide, c8_monitor_display.1 5 none (by decide), by decide,
    c8_monitor_display.2.2.2.1 ExecutionMonitor.demoJob (by decide)⟩

/-- C9: the `onmessage` handler of `JobWebSocket` invokes the
user-supplied `onMessage` callback exactly on frames whose payload
parses as JSON, with the parsed value; on a parse error it makes no
callback and still returns normally (the exception is caught inside the
handler); over a frame sequence, the callback invocations are exactly
the successfully parsed payloads. -/
theorem c9_onmessage_catches_parse_errors :
    (∀ e : String, JobWebSocket.onmessage (Except.error e) = ([], true)) ∧
    (∀ m : WSMessage, JobWebSocket.onmessage (Except.ok m) = ([m], true)) ∧
    (∀ frames : List (Except String WSMessage),
      JobWebSocket.callbackCalls frames = frames.filterMap Except.toOption) := by
  refine ⟨fun e => rfl, fun m => rfl, ?_⟩
  intro frames
  induction frames with
  | nil => rfl
  | cons f rest ih =>
      cases f with
      | ok m =>
          simp only [JobWebSocket.callbackCalls, List.flatMap_cons,
            List.filterMap_cons] at ih ⊢
          rw [JobWebSocket.onmessage]
          simp only [Except.toOption]
          rw [List.singleton_append]
          exact congrArg (m :: ·) ih
      | error e =>
          simp only [JobWebSocket.callbackCalls, List.flatMap_cons,
            List.filterMap_cons] at ih ⊢
          rw [JobWebSocket.onmessage]
          simp only [Except.toOption]
          rw [List.nil_append]
          exact ih

/-- C10: `updateActiveJob(jobId, updates)` on a store whose `activeJobs`
map has no entry for `jobId` leaves the map extensionally unchanged
(indeed equal) and leaves the rest of the state — `sidebarOpen` —
untouched. -/
theorem c10_updateActiveJob_missing_frame (s : Store.AppState)
    (jobId : String) (u : Store.JobUpdate)
    (h : Store.mapGet s.activeJobs jobId = none) :
    (Store.updateActiveJob s jobId u).activeJobs = s.activeJobs ∧
    (∀ k, Store.mapGet (Store.updateActiveJob s jobId u).activeJobs k =
      Store.mapGet s.activeJobs k) ∧
    (Store.updateActiveJob s jobId u).sidebarOpen = s.sidebarOpen := by
  simp [Store.updateActiveJob, h]

/-- Witness for C10: updating a job id absent from a concrete store
changes nothing. -/
theorem c10_updateActiveJob_missing_frame_witness :
    Store.mapGet Store.demoState.activeJobs "absent" = none ∧
    (Store.updateActiveJob Store.demoState "absent"
      Store.demoUpdate).activeJobs = Store.demoState.activeJobs ∧
    (Store.updateActiveJob Store.demoState "absent"
      Store.demoUpdate).sidebarOpen = Store.demoState.sidebarOpen :=
  ⟨by decide,
    (c10_updateActiveJob_missing_frame Store.demoState "absent"
      Store.demoUpdate (by decide)).1,
    (c10_updateActiveJob_missing_frame Store.demoState "absent"
      Store.demoUpdate (by decide)).2.2⟩

end AppAW
